import Mathlib

/-!
Verification of the notes-api repository: a shallow embedding of the
PostgreSQL note repository (`NoteRepoPG`) and of the HTTP handlers, with
proofs of the spec's claims about them.

The relational store is embedded as an explicit state (`DBState`): the
`notes` table, the `notes_log` table and the sequence that backs the
`id` column.  Timestamps are modelled as integers.  SQL queries are
translated statement by statement: `ORDER BY created_at DESC, id DESC`
becomes sorting by `canonBefore`, `WHERE (created_at, id) < ($1, $2)`
becomes a filter by the lexicographic `keyLt`, `LIMIT n` becomes
`List.take`, `COALESCE($i, col)` becomes `Option.getD`.
-/

namespace NotesAPI

/-- `core.Note` — the persisted entity (fields as scanned in `GetByID`:
id, title, content, created_at, updated_at). -/
structure Note where
  ID : Int
  Title : String
  Content : String
  CreatedAt : Int
  UpdatedAt : Int
deriving Repr, DecidableEq

/-- `core.NoteCreate` — creation payload (title, content). -/
structure NoteCreate where
  Title : String
  Content : String
deriving Repr, DecidableEq

/-- `core.NoteUpdate` — partial-update payload; `*string` pointers become
`Option String` (`none` = SQL NULL parameter). -/
structure NoteUpdate where
  Title : Option String
  Content : Option String
deriving Repr, DecidableEq

/-- `core.NoteShort` — the (id, title) projection returned by `GetByIDs`. -/
structure NoteShort where
  ID : Int
  Title : String
deriving Repr, DecidableEq

/-- `core.NoteCursor` — keyset-pagination cursor: the (created_at, id) of
the last row already seen. -/
structure NoteCursor where
  CreatedAt : Int
  ID : Int
deriving Repr, DecidableEq

/-- A row of the `notes_log` table (note_id, action, created_at). -/
structure NotesLog where
  note_id : Int
  action : String
  created_at : Int
deriving Repr, DecidableEq

/-- The visible state of the relational store: the two tables plus the
sequence backing the `id` column (`RETURNING id` hands out `nextId`). -/
structure DBState where
  notes : List Note
  logs : List NotesLog
  nextId : Int
deriving Repr, DecidableEq

/-- The sort key used by every listing query: the `(created_at, id)` pair. -/
def canonKey (n : Note) : Int × Int := (n.CreatedAt, n.ID)

/-- SQL row comparison `(a1, a2) < (b1, b2)`: lexicographic strict order. -/
def keyLt (a b : Int × Int) : Prop := a.1 < b.1 ∨ (a.1 = b.1 ∧ a.2 < b.2)

/-- Lexicographic `≤` on the sort key. -/
def keyLe (a b : Int × Int) : Prop := a.1 < b.1 ∨ (a.1 = b.1 ∧ a.2 ≤ b.2)

instance keyLt.instDecidable : DecidableRel keyLt := by
  intro a b; unfold keyLt; infer_instance

instance keyLe.instDecidable : DecidableRel keyLe := by
  intro a b; unfold keyLe; infer_instance

/-- `ORDER BY created_at DESC, id DESC`: note `a` comes no later than
note `b` exactly when `b`'s key is lexicographically `≤` `a`'s key. -/
def canonBefore (a b : Note) : Prop := keyLe (canonKey b) (canonKey a)

/-- Strict version of the canonical ordering: `b` is strictly after `a`. -/
def canonStrict (a b : Note) : Prop := keyLt (canonKey b) (canonKey a)

instance canonBefore.instDecidable : DecidableRel canonBefore := by
  intro a b; unfold canonBefore; infer_instance

instance canonStrict.instDecidable : DecidableRel canonStrict := by
  intro a b; unfold canonStrict; infer_instance

instance canonBefore.instIsTotal : IsTotal Note canonBefore := by
  constructor
  intro a b
  unfold canonBefore keyLe canonKey
  omega

instance canonBefore.instIsTrans : IsTrans Note canonBefore := by
  constructor
  intro a b c hab hbc
  unfold canonBefore keyLe canonKey at *
  omega

instance canonStrict.instIsAntisymm : IsAntisymm Note canonStrict := by
  constructor
  intro a b hab hba
  unfold canonStrict keyLt canonKey at hab hba
  exfalso
  omega

instance canonStrict.instIsTrans : IsTrans Note canonStrict := by
  constructor
  intro a b c hab hbc
  unfold canonStrict keyLt canonKey at *
  omega

/-- The result of the `ORDER BY created_at DESC, id DESC` clause on a bag
of rows. -/
def sortCanon (l : List Note) : List Note := List.insertionSort canonBefore l

/-- `Create`: `INSERT INTO notes (title, content) VALUES ($1, $2)
RETURNING id`.  Modelled from the spec: the `notes` DDL is not in the
repository; per the spec the backing store assigns `id` from its
sequence and defaults both timestamps to the creation time `now`.
Returns the new state and the returned id. -/
def Create (db : DBState) (n : NoteCreate) (now : Int) : DBState × Int :=
  ({ notes := db.notes ++
        [{ ID := db.nextId, Title := n.Title, Content := n.Content,
           CreatedAt := now, UpdatedAt := now }],
     logs := db.logs,
     nextId := db.nextId + 1 }, db.nextId)

/-- `GetByID`: `SELECT ... FROM notes WHERE id = $1` scanned into a
single row; `none` models the `sql.ErrNoRows` error path (note absent). -/
def GetByID (db : DBState) (id : Int) : Option Note :=
  db.notes.find? (fun n => n.ID == id)

/-- The row merge performed by
`SET title = COALESCE($1, title), content = COALESCE($2, content),
updated_at = $3`: a NULL parameter (`none`) keeps the old column value. -/
def applyUpdate (u : NoteUpdate) (now : Int) (n : Note) : Note :=
  { n with
    Title := u.Title.getD n.Title,
    Content := u.Content.getD n.Content,
    UpdatedAt := now }

/-- Effect of the `UPDATE ... WHERE id = $4` statement: the new table
contents and the affected-row count reported by the driver. -/
def UpdateExec (db : DBState) (id : Int) (u : NoteUpdate) (now : Int) :
    DBState × Nat :=
  ({ db with
      notes := db.notes.map (fun n => if n.ID = id then applyUpdate u now n else n) },
   (db.notes.filter (fun n => n.ID == id)).length)

/-- `Update`: executes the statement and returns `nil` error; the
affected-row count from `ExecContext` is discarded (`_, err = ...`). -/
def Update (db : DBState) (id : Int) (u : NoteUpdate) (now : Int) :
    Except String DBState :=
  Except.ok (UpdateExec db id u now).1

/-- Effect of `DELETE FROM notes WHERE id = $1`: remaining rows and the
affected-row count. -/
def DeleteExec (db : DBState) (id : Int) : DBState × Nat :=
  ({ db with notes := db.notes.filter (fun n => n.ID != id) },
   (db.notes.filter (fun n => n.ID == id)).length)

/-- `Delete`: executes the statement and returns `nil` error; the
affected-row count is discarded. -/
def Delete (db : DBState) (id : Int) : Except String DBState :=
  Except.ok (DeleteExec db id).1

/-- `ListFirstPage`: `SELECT ... ORDER BY created_at DESC, id DESC
LIMIT $1`. -/
def ListFirstPage (db : DBState) (limit : Nat) : List Note :=
  (sortCanon db.notes).take limit

/-- `ListAfterCursor`: `SELECT ... WHERE (created_at, id) < ($1, $2)
ORDER BY created_at DESC, id DESC LIMIT $3` — one composite lexicographic
comparison against the cursor pair, then the canonical sort and the limit. -/
def ListAfterCursor (db : DBState) (cursor : NoteCursor) (limit : Nat) :
    List Note :=
  (sortCanon (db.notes.filter
      (fun n => decide (keyLt (canonKey n) (cursor.CreatedAt, cursor.ID))))).take limit

/-- Projection used by `GetByIDs` (`SELECT id, title`). -/
def toNoteShort (n : Note) : NoteShort := { ID := n.ID, Title := n.Title }

/-- `GetByIDs`: empty input returns `[]` before any statement is
prepared; otherwise `SELECT id, title FROM notes WHERE id = ANY($1)`.
The second component counts the database queries issued. -/
def GetByIDs (db : DBState) (ids : List Int) : List NoteShort × Nat :=
  if ids = [] then ([], 0)
  else ((db.notes.filter (fun n => ids.contains n.ID)).map toNoteShort, 1)

/-- `GetAll`: `SELECT ... ORDER BY created_at DESC, id DESC` with no
limit. -/
def GetAll (db : DBState) : List Note :=
  sortCanon db.notes

/-- An open transaction (`sql.Tx`): `base` is the committed state other
readers see; `pending` is the transaction-local view that statements
executed on the transaction mutate. -/
structure Tx where
  base : DBState
  pending : DBState
deriving Repr, DecidableEq

/-- `db.BeginTx`: opens a transaction whose local view starts at the
committed state. -/
def txBegin (db : DBState) : Tx := { base := db, pending := db }

/-- The note insert executed on the transaction
(`tx.QueryRowContext(INSERT INTO notes ... RETURNING id)`): mutates only
the transaction-local view. -/
def txInsertNote (tx : Tx) (n : NoteCreate) (now : Int) : Tx × Int :=
  ({ tx with pending := (Create tx.pending n now).1 }, (Create tx.pending n now).2)

/-- The log insert executed on the transaction
(`tx.ExecContext(INSERT INTO notes_log ...)`). -/
def txInsertLog (tx : Tx) (noteID : Int) (act : String) (now : Int) : Tx :=
  { tx with pending := { tx.pending with logs := tx.pending.logs ++ [{ note_id := noteID, action := act, created_at := now }] } }

/-- `tx.Rollback`: discards the transaction-local view; the committed
state is what remains visible. -/
def txRollback (tx : Tx) : DBState := tx.base

/-- `tx.Commit`: publishes the transaction-local view. -/
def txCommit (tx : Tx) : DBState := tx.pending

/-- Which step of `CreateWithLogTx` fails, if any — the error injected by
the environment (driver/database) at that step. -/
inductive TxOutcome where
  | ok
  | beginFail
  | noteInsertFail
  | logInsertFail
  | commitFail
deriving Repr, DecidableEq

/-- `CreateWithLogTx`: begin a read-committed transaction with
`defer tx.Rollback()` registered, insert the note, insert the
`notes_log` row with action `"created"`, commit.  Every return that does
not follow a successful `Commit` runs the deferred `Rollback`, so only
the committed state is visible afterwards.  Returns the id result
(`none` models a non-nil error) and the state visible to subsequent
readers. -/
def CreateWithLogTx (db : DBState) (n : NoteCreate) (now : Int)
    (o : TxOutcome) : Option Int × DBState :=
  match o with
  | .beginFail => (none, db)
  | .noteInsertFail =>
      (none, txRollback (txBegin db))
  | .logInsertFail =>
      (none, txRollback (txInsertNote (txBegin db) n now).1)
  | .commitFail =>
      (none, txRollback (txInsertLog (txInsertNote (txBegin db) n now).1
          (txInsertNote (txBegin db) n now).2 "created" now))
  | .ok =>
      let step := txInsertNote (txBegin db) n now
      (some step.2, txCommit (txInsertLog step.1 step.2 "created" now))

/-- Body of an HTTP response, as produced by `respondWithError` /
`respondWithJSON`. -/
inductive RespBody where
  | errMsg (s : String)
  | note (n : Note)
  | notes (l : List Note)
  | empty
deriving Repr, DecidableEq

/-- An HTTP response: status code and body. -/
structure HttpResponse where
  status : Nat
  body : RespBody
deriving Repr, DecidableEq

/-- Handler `CreateNote` (`POST /api/v1/notes`): decode the body, reject
a blank title, call `Repo.Create`, re-fetch the created note with
`Repo.GetByID`, respond 201.  `body = none` models a JSON decode
failure. -/
def CreateNote (db : DBState) (now : Int) (body : Option NoteCreate) :
    HttpResponse × DBState :=
  match body with
  | none => ({ status := 400, body := .errMsg "Invalid JSON" }, db)
  | some req =>
      if req.Title.trim = "" then
        ({ status := 400, body := .errMsg "Title is required" }, db)
      else
        let res := Create db req now
        match GetByID res.1 res.2 with
        | none => ({ status := 500, body := .errMsg "Failed to retrieve created note" }, res.1)
        | some note => ({ status := 201, body := .note note }, res.1)

/-- Handler `PatchNote` (`PATCH /api/v1/notes/{id}`): parse the id,
decode the body, reject an all-absent update, reject a present-but-blank
title, call `Repo.Update` then `Repo.GetByID`.  `idParam = none` models
an unparsable id, `body = none` a JSON decode failure.  The last
component counts the store operations invoked. -/
def PatchNote (db : DBState) (now : Int) (idParam : Option Int)
    (body : Option NoteUpdate) : HttpResponse × DBState × Nat :=
  match idParam with
  | none => ({ status := 400, body := .errMsg "Invalid note ID" }, db, 0)
  | some id =>
      match body with
      | none => ({ status := 400, body := .errMsg "Invalid JSON" }, db, 0)
      | some u =>
          if u.Title = none ∧ u.Content = none then
            ({ status := 400, body := .errMsg "No fields to update" }, db, 0)
          else
            match u.Title with
            | some t =>
                if t.trim = "" then
                  ({ status := 400, body := .errMsg "Title cannot be empty" }, db, 0)
                else
                  patchApply db now id u
            | none => patchApply db now id u
where
  /-- The store-calling tail of `PatchNote`: `Repo.Update` then
  `Repo.GetByID`, 200 with the re-fetched note on success. -/
  patchApply (db : DBState) (now : Int) (id : Int) (u : NoteUpdate) :
      HttpResponse × DBState × Nat :=
    let db2 := (UpdateExec db id u now).1
    match GetByID db2 id with
    | none => ({ status := 500, body := .errMsg "Failed to retrieve updated note" }, db2, 2)
    | some note => ({ status := 200, body := .note note }, db2, 2)

/-- The handlers registered on the router. -/
inductive HandlerId where
  | createNote
  | getNote
  | listNotes
  | patchNote
  | deleteNote
  | health
deriving Repr, DecidableEq

/-- The repository operations. -/
inductive StoreOp where
  | create
  | createWithLogTx
  | getByID
  | update
  | delete
  | listFirstPage
  | listAfterCursor
  | getByIDs
  | getAll
deriving Repr, DecidableEq

/-- The repository operations whose calls appear in each handler's body
(`h.Repo.<op>` call sites in the handlers source). -/
def handlerStoreOps : HandlerId → List StoreOp
  | .createNote => [.create, .getByID]
  | .getNote => [.getByID]
  | .listNotes => [.getAll]
  | .patchNote => [.update, .getByID]
  | .deleteNote => [.delete]
  | .health => []

/-- The route table built by `NewRouter`: method, path pattern, handler. -/
def routes : List (String × String × HandlerId) :=
  [("POST", "/api/v1/notes", .createNote),
   ("GET", "/api/v1/notes", .listNotes),
   ("GET", "/api/v1/notes/{id}", .getNote),
   ("PATCH", "/api/v1/notes/{id}", .patchNote),
   ("DELETE", "/api/v1/notes/{id}", .deleteNote),
   ("GET", "/health", .health)]

/-- The store at startup: empty tables, sequence at 1. -/
def emptyDB : DBState := { notes := [], logs := [], nextId := 1 }

/-- Store states reachable through the repository operations, with the
current time as second index: each operation runs at a time `t2` no
earlier than every previous operation (the clock is monotone). -/
inductive Reachable : DBState → Int → Prop where
  | init (t : Int) : Reachable emptyDB t
  | tick {db : DBState} {t : Int} (t2 : Int) :
      Reachable db t → t ≤ t2 → Reachable db t2
  | create {db : DBState} {t : Int} (c : NoteCreate) (t2 : Int) :
      Reachable db t → t ≤ t2 → Reachable (Create db c t2).1 t2
  | createWithLog {db : DBState} {t : Int} (c : NoteCreate) (t2 : Int)
      (o : TxOutcome) :
      Reachable db t → t ≤ t2 → Reachable (CreateWithLogTx db c t2 o).2 t2
  | update {db : DBState} {t : Int} (id : Int) (u : NoteUpdate) (t2 : Int) :
      Reachable db t → t ≤ t2 → Reachable (UpdateExec db id u t2).1 t2
  | delete {db : DBState} {t : Int} (id : Int) :
      Reachable db t → Reachable (DeleteExec db id).1 t

/-! ### Helper lemmas -/

theorem list_map_self {α : Type} (f : α → α) :
    ∀ l : List α, (∀ x ∈ l, f x = x) → l.map f = l := by
  intro l
  induction l with
  | nil => intro _; rfl
  | cons a l ih =>
      intro h
      simp only [List.map_cons]
      rw [h a (by simp), ih (fun x hx => h x (by simp [hx]))]

theorem applyUpdate_ID (u : NoteUpdate) (now : Int) (n : Note) :
    (applyUpdate u now n).ID = n.ID := rfl

theorem find_update_hit (id : Int) (u : NoteUpdate) (now : Int) :
    ∀ l : List Note,
      (l.map (fun n => if n.ID = id then applyUpdate u now n else n)).find?
          (fun n => n.ID == id) =
        (l.find? (fun n => n.ID == id)).map (applyUpdate u now) := by
  intro l
  induction l with
  | nil => rfl
  | cons a l ih =>
      by_cases ha : a.ID = id
      · simp only [List.map_cons, if_pos ha]
        rw [List.find?_cons_of_pos, List.find?_cons_of_pos]
        · simp
        · simp [ha]
        · simp [applyUpdate_ID, ha]
      · simp only [List.map_cons, if_neg ha]
        rw [List.find?_cons_of_neg, List.find?_cons_of_neg]
        · exact ih
        · simp [ha]
        · simp [ha]

theorem find_update_frame (id j : Int) (u : NoteUpdate) (now : Int) (hj : j ≠ id) :
    ∀ l : List Note,
      (l.map (fun n => if n.ID = id then applyUpdate u now n else n)).find?
          (fun n => n.ID == j) =
        l.find? (fun n => n.ID == j) := by
  intro l
  induction l with
  | nil => rfl
  | cons a l ih =>
      by_cases ha : a.ID = id
      · have haj : ¬ a.ID = j := by rw [ha]; exact fun h => hj h.symm
        simp only [List.map_cons, if_pos ha]
        rw [List.find?_cons_of_neg, List.find?_cons_of_neg]
        · exact ih
        · simp [haj]
        · simp [applyUpdate_ID, haj]
      · simp only [List.map_cons, if_neg ha]
        by_cases haj : a.ID = j
        · rw [List.find?_cons_of_pos, List.find?_cons_of_pos] <;> simp [haj]
        · rw [List.find?_cons_of_neg, List.find?_cons_of_neg]
          · exact ih
          · simp [haj]
          · simp [haj]

theorem createWithLogTx_fail (db : DBState) (n : NoteCreate) (now : Int)
    (o : TxOutcome) (ho : o ≠ TxOutcome.ok) :
    CreateWithLogTx db n now o = (none, db) := by
  cases o with
  | ok => exact absurd rfl ho
  | beginFail => rfl
  | noteInsertFail => rfl
  | logInsertFail => rfl
  | commitFail => rfl

theorem createWithLogTx_ok (db : DBState) (n : NoteCreate) (now : Int) :
    CreateWithLogTx db n now TxOutcome.ok =
      (some db.nextId,
       { notes := db.notes ++
            [{ ID := db.nextId, Title := n.Title, Content := n.Content,
               CreatedAt := now, UpdatedAt := now }],
         logs := db.logs ++
            [{ note_id := db.nextId, action := "created", created_at := now }],
         nextId := db.nextId + 1 }) := rfl

theorem getByID_eq_none {db : DBState} {id : Int}
    (h : ∀ m ∈ db.notes, m.ID ≠ id) : GetByID db id = none := by
  unfold GetByID
  rw [List.find?_eq_none]
  intro x hx
  simp [h x hx]

theorem canonStrict_of_canonBefore_of_ne {a b : Note}
    (h1 : canonBefore a b) (h2 : a.ID ≠ b.ID) : canonStrict a b := by
  unfold canonBefore keyLe canonKey at h1
  unfold canonStrict keyLt canonKey
  omega

theorem keyLt_irrefl (k : Int × Int) : ¬ keyLt k k := by
  unfold keyLt; omega

theorem keyLt_asymm {k1 k2 : Int × Int} (h : keyLt k1 k2) : ¬ keyLt k2 k1 := by
  unfold keyLt at *; omega

theorem sortCanon_pairwise_strict (l : List Note)
    (hnd : (l.map Note.ID).Nodup) : (sortCanon l).Pairwise canonStrict := by
  have hs : (sortCanon l).Pairwise canonBefore :=
    List.sorted_insertionSort canonBefore l
  have hperm : List.Perm ((sortCanon l).map Note.ID) (l.map Note.ID) :=
    (List.perm_insertionSort canonBefore l).map Note.ID
  have hnd2 : ((sortCanon l).map Note.ID).Nodup := hperm.nodup_iff.mpr hnd
  have hne : (sortCanon l).Pairwise (fun a b => a.ID ≠ b.ID) :=
    List.pairwise_map.mp hnd2
  exact hs.imp₂ (fun a b h1 h2 => canonStrict_of_canonBefore_of_ne h1 h2) hne

theorem sortCanon_filter_comm (l : List Note)
    (hnd : (l.map Note.ID).Nodup) (p : Note → Bool) :
    sortCanon (l.filter p) = (sortCanon l).filter p := by
  have hfnd : ((l.filter p).map Note.ID).Nodup :=
    ((List.filter_sublist l).map Note.ID).nodup hnd
  have h1 : (sortCanon (l.filter p)).Pairwise canonStrict :=
    sortCanon_pairwise_strict _ hfnd
  have h2 : ((sortCanon l).filter p).Pairwise canonStrict :=
    List.Pairwise.sublist (List.filter_sublist (sortCanon l))
      (sortCanon_pairwise_strict l hnd)
  have hperm : List.Perm (sortCanon (l.filter p)) ((sortCanon l).filter p) :=
    (List.perm_insertionSort canonBefore (l.filter p)).trans
      (((List.perm_insertionSort canonBefore l).filter p).symm)
  exact List.eq_of_perm_of_sorted hperm h1 h2

theorem pairwise_filter_drop (s : List Note) (hp : s.Pairwise canonStrict)
    (j : Nat) (hj0 : 0 < j) (hjl : j - 1 < s.length) (c : Note)
    (hc : s[j - 1] = c) :
    s.filter (fun x => decide (keyLt (canonKey x) (canonKey c))) = s.drop j := by
  have hpg := List.pairwise_iff_getElem.mp hp
  have key1 : ∀ x ∈ s.take j, ¬ keyLt (canonKey x) (canonKey c) := by
    intro x hx
    obtain ⟨i, hi, hix⟩ := List.mem_iff_getElem.mp hx
    have hlen : i < min j s.length := by
      have := hi; simp [List.length_take] at this; omega
    have his : i < s.length := by omega
    have hxs : x = s[i] := by
      rw [← hix]; simp
    rcases Nat.lt_or_ge i (j - 1) with hlt | hge
    · have hcs : canonStrict s[i] s[j - 1] :=
        hpg i (j-1) his hjl hlt
      rw [hc] at hcs
      unfold canonStrict at hcs
      rw [hxs]
      exact keyLt_asymm hcs
    · have hieq : i = j - 1 := by omega
      subst hieq
      rw [hxs, hc]
      exact keyLt_irrefl _
  have key2 : ∀ x ∈ s.drop j, keyLt (canonKey x) (canonKey c) := by
    intro x hx
    obtain ⟨i, hi, hix⟩ := List.mem_iff_getElem.mp hx
    have hlen : j + i < s.length := by
      have := hi; simp [List.length_drop] at this; omega
    have hxs : x = s[j + i] := by
      rw [← hix]; simp
    have hcs : canonStrict s[j - 1] s[j + i] :=
      hpg (j-1) (j+i) hjl hlen (by omega)
    rw [hc] at hcs
    unfold canonStrict at hcs
    rw [hxs]
    exact hcs
  calc s.filter (fun x => decide (keyLt (canonKey x) (canonKey c)))
      = (s.take j ++ s.drop j).filter
          (fun x => decide (keyLt (canonKey x) (canonKey c))) := by
        rw [List.take_append_drop]
    _ = (s.take j).filter (fun x => decide (keyLt (canonKey x) (canonKey c))) ++
        (s.drop j).filter (fun x => decide (keyLt (canonKey x) (canonKey c))) :=
        List.filter_append _ _
    _ = [] ++ s.drop j := by
        rw [List.filter_eq_nil_iff.mpr (by intro a ha; simpa using key1 a ha),
            List.filter_eq_self.mpr (by intro a ha; simpa using key2 a ha)]
    _ = s.drop j := List.nil_append _

theorem drop_min_length (s : List Note) (N : Nat) :
    s.drop N = s.drop (min N s.length) := by
  rcases Nat.le_total N s.length with h | h
  · rw [Nat.min_eq_left h]
  · rw [Nat.min_eq_right h, List.drop_eq_nil_of_le h,
        List.drop_eq_nil_of_le (Nat.le_refl _)]

/-! ### Claim theorems -/

/-- C1: `CreateWithLogTx` is atomic.  On the successful path both the
note row and the `notes_log` row with action `"created"` are committed
together; on every exit path that does not reach a successful commit
(begin error, note-insert error, log-insert error, commit error) the
deferred rollback leaves the visible state exactly as it was, and in
particular after a failed log insert `GetByID` for the attempted note id
reports the note as absent. -/
theorem createWithLogTx_atomic (db : DBState) (n : NoteCreate) (now : Int)
    (o : TxOutcome) (hfresh : ∀ m ∈ db.notes, m.ID ≠ db.nextId) :
    (o ≠ TxOutcome.ok → CreateWithLogTx db n now o = (none, db)) ∧
    (CreateWithLogTx db n now TxOutcome.ok =
      (some db.nextId,
       { notes := db.notes ++
            [{ ID := db.nextId, Title := n.Title, Content := n.Content,
               CreatedAt := now, UpdatedAt := now }],
         logs := db.logs ++
            [{ note_id := db.nextId, action := "created", created_at := now }],
         nextId := db.nextId + 1 })) ∧
    GetByID (CreateWithLogTx db n now TxOutcome.logInsertFail).2 db.nextId = none := by
  refine ⟨fun ho => createWithLogTx_fail db n now o ho, createWithLogTx_ok db n now, ?_⟩
  rw [createWithLogTx_fail db n now TxOutcome.logInsertFail (by simp)]
  exact getByID_eq_none hfresh

/-- Concrete store used to witness C1. -/
def dbC1 : DBState :=
  { notes := [{ ID := 1, Title := "A", Content := "x", CreatedAt := 0, UpdatedAt := 0 }],
    logs := [], nextId := 2 }

theorem createWithLogTx_atomic_witness :
    CreateWithLogTx dbC1 { Title := "B", Content := "y" } 5 TxOutcome.logInsertFail =
      (none, dbC1) ∧
    GetByID (CreateWithLogTx dbC1 { Title := "B", Content := "y" } 5
        TxOutcome.logInsertFail).2 dbC1.nextId = none :=
  ⟨(createWithLogTx_atomic dbC1 { Title := "B", Content := "y" } 5
      TxOutcome.logInsertFail (by decide)).1 (by decide),
   (createWithLogTx_atomic dbC1 { Title := "B", Content := "y" } 5
      TxOutcome.logInsertFail (by decide)).2.2⟩

/-- C5: partial-update frame.  After `Update` on an existing note, an
absent field leaves the stored column unchanged (the `COALESCE` keeps the
old value), a present field replaces it, `created_at` and `id` are
untouched, `updated_at` becomes the update time regardless of which
fields were supplied, and every other id reads back exactly as before. -/
theorem update_partial_frame (db : DBState) (id : Int) (u : NoteUpdate)
    (now : Int) (n : Note) (h : GetByID db id = some n) :
    GetByID (UpdateExec db id u now).1 id =
      some { n with Title := u.Title.getD n.Title,
                    Content := u.Content.getD n.Content,
                    UpdatedAt := now } ∧
    (u.Title = none → (applyUpdate u now n).Title = n.Title) ∧
    (u.Content = none → (applyUpdate u now n).Content = n.Content) ∧
    (applyUpdate u now n).CreatedAt = n.CreatedAt ∧
    (applyUpdate u now n).ID = n.ID ∧
    (applyUpdate u now n).UpdatedAt = now ∧
    (∀ j : Int, j ≠ id → GetByID (UpdateExec db id u now).1 j = GetByID db j) := by
  refine ⟨?_, ?_, ?_, rfl, rfl, rfl, ?_⟩
  · unfold GetByID UpdateExec
    unfold GetByID at h
    simp only
    rw [find_update_hit, h]
    rfl
  · intro ht; simp [applyUpdate, ht]
  · intro hcnt; simp [applyUpdate, hcnt]
  · intro j hj
    unfold GetByID UpdateExec
    simp only
    rw [find_update_frame id j u now hj]

/-- Concrete store used to witness C5. -/
def dbC5 : DBState :=
  { notes := [{ ID := 1, Title := "t", Content := "c", CreatedAt := 0, UpdatedAt := 0 },
              { ID := 2, Title := "u", Content := "d", CreatedAt := 1, UpdatedAt := 1 }],
    logs := [], nextId := 3 }

theorem update_partial_frame_witness :
    GetByID (UpdateExec dbC5 1 { Title := none, Content := some "x" } 9).1 1 =
      some { ID := 1, Title := "t", Content := "x", CreatedAt := 0, UpdatedAt := 9 } ∧
    GetByID (UpdateExec dbC5 1 { Title := none, Content := some "x" } 9).1 2 =
      GetByID dbC5 2 :=
  ⟨(update_partial_frame dbC5 1 { Title := none, Content := some "x" } 9
      { ID := 1, Title := "t", Content := "c", CreatedAt := 0, UpdatedAt := 0 }
      (by decide)).1,
   (update_partial_frame dbC5 1 { Title := none, Content := some "x" } 9
      { ID := 1, Title := "t", Content := "c", CreatedAt := 0, UpdatedAt := 0 }
      (by decide)).2.2.2.2.2.2 2 (by decide)⟩

/-- C6: `Update` and `Delete` on an id that is not in the store return
success (the zero affected-row count is never inspected) and leave the
store state entirely unchanged. -/
theorem update_delete_missing_id (db : DBState) (id : Int) (u : NoteUpdate)
    (now : Int) (h : ∀ n ∈ db.notes, n.ID ≠ id) :
    Update db id u now = Except.ok db ∧ Delete db id = Except.ok db := by
  constructor
  · unfold Update UpdateExec
    have hmap : db.notes.map
        (fun n => if n.ID = id then applyUpdate u now n else n) = db.notes := by
      apply list_map_self
      intro x hx
      rw [if_neg (h x hx)]
    simp only [hmap]
  · unfold Delete DeleteExec
    have hf : db.notes.filter (fun n => n.ID != id) = db.notes := by
      apply List.filter_eq_self.mpr
      intro a ha
      simpa using h a ha
    simp only [hf]

/-- Concrete store used to witness C6. -/
def dbC6 : DBState :=
  { notes := [{ ID := 1, Title := "a", Content := "b", CreatedAt := 0, UpdatedAt := 0 }],
    logs := [], nextId := 2 }

theorem update_delete_missing_id_witness :
    Update dbC6 99 { Title := none, Content := some "z" } 7 = Except.ok dbC6 ∧
    Delete dbC6 99 = Except.ok dbC6 :=
  update_delete_missing_id dbC6 99 { Title := none, Content := some "z" } 7 (by decide)

/-- C7: `GetByIDs []` returns the empty sequence while issuing no
database query; for a non-empty id list exactly one query runs and the
result is exactly the (id, title) projections of the stored notes whose
id occurs in the input — ids with no matching note are silently
omitted. -/
theorem getByIDs_batch (db : DBState) :
    GetByIDs db [] = ([], 0) ∧
    ∀ ids : List Int, ids ≠ [] →
      (GetByIDs db ids).2 = 1 ∧
      ∀ s : NoteShort,
        s ∈ (GetByIDs db ids).1 ↔
          ∃ n ∈ db.notes, n.ID ∈ ids ∧ s = toNoteShort n := by
  refine ⟨rfl, ?_⟩
  intro ids hids
  unfold GetByIDs
  rw [if_neg hids]
  refine ⟨rfl, ?_⟩
  intro s
  simp only [List.mem_map, List.mem_filter]
  constructor
  · rintro ⟨n, ⟨hn, hc⟩, rfl⟩
    exact ⟨n, hn, by simpa using hc, rfl⟩
  · rintro ⟨n, hn, hc, rfl⟩
    exact ⟨n, ⟨hn, by simpa using hc⟩, rfl⟩

/-- Concrete store used to witness C7. -/
def dbC7 : DBState :=
  { notes := [{ ID := 1, Title := "a", Content := "", CreatedAt := 0, UpdatedAt := 0 },
              { ID := 3, Title := "c", Content := "", CreatedAt := 1, UpdatedAt := 1 }],
    logs := [], nextId := 4 }

theorem getByIDs_batch_witness :
    GetByIDs dbC7 [] = ([], 0) ∧
    (GetByIDs dbC7 [1, 2, 3]).2 = 1 ∧
    ((toNoteShort { ID := 1, Title := "a", Content := "", CreatedAt := 0, UpdatedAt := 0 }) ∈
        (GetByIDs dbC7 [1, 2, 3]).1 ↔
      ∃ n ∈ dbC7.notes, n.ID ∈ [1, 2, 3] ∧
        toNoteShort { ID := 1, Title := "a", Content := "", CreatedAt := 0, UpdatedAt := 0 } =
          toNoteShort n) :=
  ⟨(getByIDs_batch dbC7).1,
   ((getByIDs_batch dbC7).2 [1, 2, 3] (by decide)).1,
   ((getByIDs_batch dbC7).2 [1, 2, 3] (by decide)).2 _⟩

/-- C10: a PATCH request whose decoded body has both `title` and
`content` absent is rejected with 400 "No fields to update" before any
store operation runs: the state is unchanged (so `updated_at` is not
refreshed) and the store-call count is zero. -/
theorem patchNote_all_absent (db : DBState) (now : Int) (id : Int) :
    PatchNote db now (some id) (some { Title := none, Content := none }) =
      ({ status := 400, body := RespBody.errMsg "No fields to update" }, db, 0) := by
  simp [PatchNote]

/-- C9: the HTTP create path goes through the plain `Create` operation:
the `CreateNote` handler leaves the `notes_log` table untouched on every
input, its call sites are exactly `Create` and `GetByID`, and no handler
registered on any route calls `CreateWithLogTx`. -/
theorem createNote_never_logs (db : DBState) (now : Int)
    (b : Option NoteCreate) :
    ((CreateNote db now b).2).logs = db.logs ∧
    handlerStoreOps HandlerId.createNote = [StoreOp.create, StoreOp.getByID] ∧
    (∀ h : HandlerId, StoreOp.createWithLogTx ∉ handlerStoreOps h) ∧
    ("POST", "/api/v1/notes", HandlerId.createNote) ∈ routes := by
  refine ⟨?_, rfl, ?_, by simp [routes]⟩
  · cases b with
    | none => rfl
    | some req =>
        by_cases ht : req.Title.trim = ""
        · simp [CreateNote, ht]
        · simp only [CreateNote, if_neg ht]
          cases hg : GetByID (Create db req now).1 (Create db req now).2 with
          | none => simp [hg, Create]
          | some note => simp [hg, Create]
  · intro h
    cases h <;> simp [handlerStoreOps]

/-- C4: `ListFirstPage` returns at most `limit` notes, is exactly the
`limit`-prefix of `GetAll`, and `GetAll` lists all stored notes (a
permutation of the table) in the canonical ordering: `created_at`
descending with ties broken by `id` descending. -/
theorem listFirstPage_canonical (db : DBState) (N : Nat) :
    ListFirstPage db N = (GetAll db).take N ∧
    (ListFirstPage db N).length ≤ N ∧
    (GetAll db).Pairwise canonBefore ∧
    List.Perm (GetAll db) db.notes ∧
    (∀ a b : Note, canonBefore a b ↔
      (b.CreatedAt < a.CreatedAt ∨
        (b.CreatedAt = a.CreatedAt ∧ b.ID ≤ a.ID))) := by
  refine ⟨rfl, List.length_take_le N _, List.sorted_insertionSort canonBefore db.notes,
    List.perm_insertionSort canonBefore db.notes, ?_⟩
  intro a b
  unfold canonBefore keyLe canonKey
  constructor
  · intro h; omega
  · intro h; omega

/-- C3: `ListAfterCursor` selects rows by the single lexicographic
comparison of the composite pair against the cursor pair: every returned
row is strictly after the cursor in the descending `(created_at, id)`
ordering, the cursor row itself is never returned, at most `limit` rows
are returned, and a row sharing the cursor's `created_at` with a smaller
id is returned whenever the limit allows. -/
theorem listAfterCursor_strictly_after (db : DBState) (cursor : NoteCursor)
    (limit : Nat) :
    (∀ n ∈ ListAfterCursor db cursor limit,
      keyLt (canonKey n) (cursor.CreatedAt, cursor.ID)) ∧
    (∀ n ∈ ListAfterCursor db cursor limit,
      ¬ (n.CreatedAt = cursor.CreatedAt ∧ n.ID = cursor.ID)) ∧
    (ListAfterCursor db cursor limit).length ≤ limit ∧
    (∀ n ∈ db.notes, db.notes.length ≤ limit →
      n.CreatedAt = cursor.CreatedAt → n.ID < cursor.ID →
      n ∈ ListAfterCursor db cursor limit) := by
  have hmem : ∀ n ∈ ListAfterCursor db cursor limit,
      keyLt (canonKey n) (cursor.CreatedAt, cursor.ID) := by
    intro n hn
    unfold ListAfterCursor at hn
    have h1 : n ∈ sortCanon (db.notes.filter
        (fun m => decide (keyLt (canonKey m) (cursor.CreatedAt, cursor.ID)))) :=
      List.take_subset limit _ hn
    have h2 := (List.perm_insertionSort canonBefore _).mem_iff.mp h1
    have h3 := (List.mem_filter.mp h2).2
    simpa using h3
  refine ⟨hmem, ?_, ?_, ?_⟩
  · intro n hn hceq
    have h := hmem n hn
    unfold keyLt canonKey at h
    obtain ⟨h1, h2⟩ := hceq
    simp only at h
    omega
  · unfold ListAfterCursor
    exact List.length_take_le limit _
  · intro n hn hlim hcre hid
    unfold ListAfterCursor
    have hp : (fun m => decide (keyLt (canonKey m) (cursor.CreatedAt, cursor.ID))) n
        = true := by
      simp only [decide_eq_true_eq]
      unfold keyLt canonKey
      right
      exact ⟨hcre, hid⟩
    have hmf : n ∈ db.notes.filter
        (fun m => decide (keyLt (canonKey m) (cursor.CreatedAt, cursor.ID))) :=
      List.mem_filter.mpr ⟨hn, hp⟩
    have hms : n ∈ sortCanon (db.notes.filter
        (fun m => decide (keyLt (canonKey m) (cursor.CreatedAt, cursor.ID)))) :=
      (List.perm_insertionSort canonBefore _).mem_iff.mpr hmf
    have hlen : (sortCanon (db.notes.filter
        (fun m => decide (keyLt (canonKey m) (cursor.CreatedAt, cursor.ID))))).length
        ≤ limit := by
      have e1 : (sortCanon (db.notes.filter
          (fun m => decide (keyLt (canonKey m) (cursor.CreatedAt, cursor.ID))))).length =
          (db.notes.filter
          (fun m => decide (keyLt (canonKey m) (cursor.CreatedAt, cursor.ID)))).length :=
        (List.perm_insertionSort canonBefore _).length_eq
      have e2 := List.length_filter_le
        (fun m => decide (keyLt (canonKey m) (cursor.CreatedAt, cursor.ID))) db.notes
      omega
    rw [List.take_of_length_le hlen]
    exact hms

/-- Concrete store used to witness C3. -/
def dbC3 : DBState :=
  { notes := [{ ID := 1, Title := "a", Content := "", CreatedAt := 1, UpdatedAt := 1 },
              { ID := 2, Title := "b", Content := "", CreatedAt := 1, UpdatedAt := 1 },
              { ID := 3, Title := "c", Content := "", CreatedAt := 1, UpdatedAt := 1 }],
    logs := [], nextId := 4 }

theorem listAfterCursor_strictly_after_witness :
    { ID := 1, Title := "a", Content := "", CreatedAt := 1, UpdatedAt := 1 } ∈
      ListAfterCursor dbC3 { CreatedAt := 1, ID := 2 } 5 :=
  (listAfterCursor_strictly_after dbC3 { CreatedAt := 1, ID := 2 } 5).2.2.2
    { ID := 1, Title := "a", Content := "", CreatedAt := 1, UpdatedAt := 1 }
    (by decide) (by decide) (by decide) (by decide)

theorem reachable_inv {db : DBState} {t : Int} (h : Reachable db t) :
    ∀ n ∈ db.notes, n.CreatedAt ≤ n.UpdatedAt ∧ n.UpdatedAt ≤ t := by
  induction h with
  | init t => intro n hn; simp [emptyDB] at hn
  | tick t2 h hle ih =>
      intro n hn
      have := ih n hn
      omega
  | create c t2 h hle ih =>
      intro n hn
      simp only [Create, List.mem_append, List.mem_singleton] at hn
      rcases hn with hn | hn
      · have := ih n hn; omega
      · subst hn; simp
  | createWithLog c t2 o h hle ih =>
      intro n hn
      cases o with
      | ok =>
          rw [createWithLogTx_ok] at hn
          simp only [List.mem_append, List.mem_singleton] at hn
          rcases hn with hn | hn
          · have := ih n hn; omega
          · subst hn; simp
      | beginFail =>
          rw [createWithLogTx_fail _ _ _ _ (by simp)] at hn
          have := ih n hn; omega
      | noteInsertFail =>
          rw [createWithLogTx_fail _ _ _ _ (by simp)] at hn
          have := ih n hn; omega
      | logInsertFail =>
          rw [createWithLogTx_fail _ _ _ _ (by simp)] at hn
          have := ih n hn; omega
      | commitFail =>
          rw [createWithLogTx_fail _ _ _ _ (by simp)] at hn
          have := ih n hn; omega
  | update id u t2 h hle ih =>
      intro n hn
      simp only [UpdateExec, List.mem_map] at hn
      obtain ⟨m, hm, rfl⟩ := hn
      have := ih m hm
      by_cases hid : m.ID = id
      · rw [if_pos hid]; simp [applyUpdate]; omega
      · rw [if_neg hid]; omega
  | delete id h ih =>
      intro n hn
      simp only [DeleteExec, List.mem_filter] at hn
      exact ih n hn.1

/-- C8: in every reachable store state every note satisfies
`created_at ≤ updated_at`; `Create` establishes it by writing the same
timestamp into both columns, and `Update` rewrites only `updated_at`
(the stored `created_at` column of every row is untouched by any
update). -/
theorem created_le_updated (db : DBState) (t : Int) (h : Reachable db t)
    (n : Note) (hn : n ∈ db.notes) :
    n.CreatedAt ≤ n.UpdatedAt ∧
    (∀ id u now, (UpdateExec db id u now).1.notes.map Note.CreatedAt =
      db.notes.map Note.CreatedAt) ∧
    (∀ c now2, (Create db c now2).1.notes = db.notes ++
      [{ ID := db.nextId, Title := c.Title, Content := c.Content,
         CreatedAt := now2, UpdatedAt := now2 }]) := by
  refine ⟨(reachable_inv h n hn).1, ?_, fun c now2 => rfl⟩
  intro id u now
  unfold UpdateExec
  simp only [List.map_map]
  apply List.map_congr_left
  intro a _
  by_cases hid : a.ID = id
  · simp [hid, applyUpdate]
  · simp [hid]

/-- Concrete reachable store used to witness C8: a note created at time 1
and partially updated at time 2. -/
def dbC8 : DBState :=
  (UpdateExec (Create emptyDB { Title := "A", Content := "x" } 1).1 1
    { Title := none, Content := some "y" } 2).1

/-- The single note of `dbC8`. -/
def nC8 : Note :=
  { ID := 1, Title := "A", Content := "y", CreatedAt := 1, UpdatedAt := 2 }

theorem created_le_updated_witness : nC8.CreatedAt ≤ nC8.UpdatedAt :=
  (created_le_updated dbC8 2
    (Reachable.update 1 { Title := none, Content := some "y" } 2
      (Reachable.create { Title := "A", Content := "x" } 1
        (Reachable.init 1) (by omega))
      (by omega))
    nC8 (by decide)).1

/-- C2: cursor continuity.  For any table contents with distinct ids
(ties in `created_at` allowed) and any `N`, `M`: the first page of `N`
rows followed by `ListAfterCursor` at the (created_at, id) of the last
returned row with limit `M` is, concatenated, exactly
`ListFirstPage (N + M)` — no row skipped, no row duplicated. -/
theorem cursor_continuity (db : DBState) (N M : Nat)
    (hnd : (db.notes.map Note.ID).Nodup)
    (c : Note) (hc : (ListFirstPage db N).getLast? = some c) :
    ListFirstPage db N ++
      ListAfterCursor db { CreatedAt := c.CreatedAt, ID := c.ID } M =
      ListFirstPage db (N + M) := by
  have hps : (sortCanon db.notes).Pairwise canonStrict :=
    sortCanon_pairwise_strict db.notes hnd
  have hfp : ListFirstPage db N = (sortCanon db.notes).take N := rfl
  rw [hfp] at hc
  have hne : (sortCanon db.notes).take N ≠ [] := by
    intro h0
    rw [h0] at hc
    simp at hc
  have hj0 : 0 < min N (sortCanon db.notes).length := by
    have h1 : 0 < ((sortCanon db.notes).take N).length := List.length_pos.mpr hne
    rw [List.length_take] at h1
    exact h1
  have hjle : min N (sortCanon db.notes).length ≤ (sortCanon db.notes).length :=
    Nat.min_le_right _ _
  rw [List.getLast?_eq_getElem?] at hc
  have hidx : ((sortCanon db.notes).take N).length - 1 <
      ((sortCanon db.notes).take N).length := by
    rw [List.length_take]
    omega
  rw [List.getElem?_eq_getElem hidx] at hc
  have hcc := Option.some.inj hc
  simp only [List.getElem_take, List.length_take] at hcc
  have hdropf : (sortCanon db.notes).filter
      (fun x => decide (keyLt (canonKey x) (canonKey c))) =
      (sortCanon db.notes).drop (min N (sortCanon db.notes).length) :=
    pairwise_filter_drop (sortCanon db.notes) hps
      (min N (sortCanon db.notes).length) hj0 (by omega) c hcc
  have hlac : ListAfterCursor db { CreatedAt := c.CreatedAt, ID := c.ID } M =
      ((sortCanon db.notes).drop (min N (sortCanon db.notes).length)).take M := by
    show (sortCanon (db.notes.filter
        (fun x => decide (keyLt (canonKey x) (canonKey c))))).take M =
      ((sortCanon db.notes).drop (min N (sortCanon db.notes).length)).take M
    rw [sortCanon_filter_comm db.notes hnd, hdropf]
  rw [hlac, hfp]
  show (sortCanon db.notes).take N ++
      ((sortCanon db.notes).drop (min N (sortCanon db.notes).length)).take M =
    (sortCanon db.notes).take (N + M)
  rw [List.take_add, ← drop_min_length]

/-- Concrete store used to witness C2: two rows share `created_at`. -/
def dbC2 : DBState :=
  { notes := [{ ID := 1, Title := "a", Content := "", CreatedAt := 0, UpdatedAt := 0 },
              { ID := 2, Title := "b", Content := "", CreatedAt := 1, UpdatedAt := 1 },
              { ID := 3, Title := "c", Content := "", CreatedAt := 1, UpdatedAt := 1 }],
    logs := [], nextId := 4 }

/-- The last row of `ListFirstPage dbC2 2`. -/
def nC2 : Note := { ID := 2, Title := "b", Content := "", CreatedAt := 1, UpdatedAt := 1 }

theorem cursor_continuity_witness :
    ListFirstPage dbC2 2 ++
      ListAfterCursor dbC2 { CreatedAt := nC2.CreatedAt, ID := nC2.ID } 1 =
      ListFirstPage dbC2 (2 + 1) :=
  cursor_continuity dbC2 2 1 (by decide) nC2 (by decide)

end NotesAPI
